import Mathlib

/-!
Verification of the ROI Align kernel
(`topi/python/topi/vision/rcnn/roi_align.py`) against its natural-language
specification.  Coordinates and feature values are modelled as exact
rationals; the Python ints of the configuration are modelled as `ℤ`.
-/

namespace RoiAlign

/-- A feature map in NCHW layout: 4-D `[batch, channel, height, width]`. -/
structure FeatureMap where
  batch : ℕ
  channel : ℕ
  height : ℕ
  width : ℕ
  data : ℕ → ℕ → ℕ → ℕ → ℚ

/-- One ROI row `rois[n][i]`, in the source's order
`roi[0], roi[1], roi[2], roi[3] = w_start, h_start, w_end, h_end`. -/
structure Roi where
  w_start : ℚ
  h_start : ℚ
  w_end : ℚ
  h_end : ℚ
deriving DecidableEq

/-- The configuration of one `roi_align_nchw` call after the pooled size has
been split into its two components. -/
structure Cfg where
  pooled_size_h : ℤ
  pooled_size_w : ℤ
  spatial_scale : ℚ
  sample_ratio : ℤ
deriving DecidableEq

/-- Source: `roi_start_h = roi[1]; roi_start_h *= spatial_scale`. -/
def roi_start_h (cfg : Cfg) (roi : Roi) : ℚ := roi.h_start * cfg.spatial_scale

/-- Source: `roi_end_h = roi[3]; roi_end_h *= spatial_scale`. -/
def roi_end_h (cfg : Cfg) (roi : Roi) : ℚ := roi.h_end * cfg.spatial_scale

/-- Source: `roi_start_w = roi[0]; roi_start_w *= spatial_scale`. -/
def roi_start_w (cfg : Cfg) (roi : Roi) : ℚ := roi.w_start * cfg.spatial_scale

/-- Source: `roi_end_w = roi[2]; roi_end_w *= spatial_scale`. -/
def roi_end_w (cfg : Cfg) (roi : Roi) : ℚ := roi.w_end * cfg.spatial_scale

/-- Source: `roi_h = tvm.max(roi_end_h - roi_start_h, tvm.const(1.0, dtype))`. -/
def roi_h (cfg : Cfg) (roi : Roi) : ℚ := max (roi_end_h cfg roi - roi_start_h cfg roi) 1

/-- Source: `roi_w = tvm.max(roi_end_w - roi_start_w, tvm.const(1.0, dtype))`. -/
def roi_w (cfg : Cfg) (roi : Roi) : ℚ := max (roi_end_w cfg roi - roi_start_w cfg roi) 1

/-- Source: `bin_h = roi_h / pooled_size_h`. -/
def bin_h (cfg : Cfg) (roi : Roi) : ℚ := roi_h cfg roi / (cfg.pooled_size_h : ℚ)

/-- Source: `bin_w = roi_w / pooled_size_w`. -/
def bin_w (cfg : Cfg) (roi : Roi) : ℚ := roi_w cfg roi / (cfg.pooled_size_w : ℚ)

/-- Source: `roi_bin_grid_h = sample_ratio` when `sample_ratio > 0`, else
`tvm.ceil(roi_h / pooled_size_h).astype('int32')`. -/
def roi_bin_grid_h (cfg : Cfg) (roi : Roi) : ℤ :=
  if 0 < cfg.sample_ratio then cfg.sample_ratio
  else ⌈roi_h cfg roi / (cfg.pooled_size_h : ℚ)⌉

/-- Source: `roi_bin_grid_w = sample_ratio` when `sample_ratio > 0`, else
`tvm.ceil(roi_w / pooled_size_w).astype('int32')`. -/
def roi_bin_grid_w (cfg : Cfg) (roi : Roi) : ℤ :=
  if 0 < cfg.sample_ratio then cfg.sample_ratio
  else ⌈roi_w cfg roi / (cfg.pooled_size_w : ℚ)⌉

/-- The vertical coordinate handed to `_bilinear` for sample row `rh` of output
row `ph`.  Source: `roi_start_h += ph * bin_h` followed by
`roi_start_h + (rh + 1.0) * bin_h / (roi_bin_grid_h + 1.0)`. -/
def sample_y (cfg : Cfg) (roi : Roi) (ph rh : ℕ) : ℚ :=
  roi_start_h cfg roi + (ph : ℚ) * bin_h cfg roi
    + ((rh : ℚ) + 1) * bin_h cfg roi / ((roi_bin_grid_h cfg roi : ℚ) + 1)

/-- The horizontal coordinate handed to `_bilinear` for sample column `rw` of
output column `pw`.  Source: `roi_start_w += pw * bin_w` followed by
`roi_start_w + (rw + 1.0) * bin_w / (roi_bin_grid_w + 1.0)`. -/
def sample_x (cfg : Cfg) (roi : Roi) (pw rw : ℕ) : ℚ :=
  roi_start_w cfg roi + (pw : ℚ) * bin_w cfg roi
    + ((rw : ℚ) + 1) * bin_w cfg roi / ((roi_bin_grid_w cfg roi : ℚ) + 1)

/-- Modelled from the spec: the helper `topi.cpp.image.bilinear_sample_nchw` is
C++ code of this repository that is not among the provided sources.  Following
spec §4.1, given a coordinate that has already been clamped to be nonnegative
it performs standard 2-D bilinear interpolation against the four neighboring
integer grid points, each clamped to the valid index range (upper bounds
`max_y`, `max_x`) so the interpolation never reads out of bounds. -/
def bilinear_sample_nchw (d : FeatureMap) (i c : ℕ) (y x : ℚ)
    (max_y max_x : ℤ) : ℚ :=
  let y0 : ℤ := min ⌊y⌋ max_y
  let y1 : ℤ := min ⌈y⌉ max_y
  let yl : ℚ := y - ⌊y⌋
  let x0 : ℤ := min ⌊x⌋ max_x
  let x1 : ℤ := min ⌈x⌉ max_x
  let xl : ℚ := x - ⌊x⌋
  d.data i c y0.toNat x0.toNat * (1 - xl) * (1 - yl)
    + d.data i c y0.toNat x1.toNat * xl * (1 - yl)
    + d.data i c y1.toNat x0.toNat * (1 - xl) * yl
    + d.data i c y1.toNat x1.toNat * xl * yl

/-- Source `_bilinear`: `outside = tvm.any(y < -1.0, x < -1.0, y > height,
x > width)`, clamp `y`, `x` to `0`, sample with bounds `height - 1`,
`width - 1`, and return `0` when `outside`.  Here `height` and `width` are the
dimension sizes unpacked from `data.shape`. -/
def _bilinear (d : FeatureMap) (i c : ℕ) (y x : ℚ) : ℚ :=
  if y < -1 ∨ x < -1 ∨ (d.height : ℚ) < y ∨ (d.width : ℚ) < x then 0
  else bilinear_sample_nchw d i c (max y 0) (max x 0)
    ((d.height : ℤ) - 1) ((d.width : ℤ) - 1)

/-- The `grid_h × grid_w` sampled values of one bin, in the source's reduction
order (`rh` the outer axis). -/
def binSamples (gh gw : ℕ) (f : ℕ → ℕ → ℚ) : List ℚ :=
  (List.range gh).flatMap fun rh => (List.range gw).map fun rw => f rh rw

/-- The `tvm.max(..., axis=[rh, rw])` reduction over one bin's grid.  For every
reachable configuration the grid extents are at least 1 (`grid_h_pos` below),
so folding `max` from the first sample computes exactly the maximum of the
grid; the fold seed stands in for the reduction's identity element. -/
def reduceMax (gh gw : ℕ) (f : ℕ → ℕ → ℚ) : ℚ :=
  (binSamples gh gw f).foldl max (f 0 0)

/-- Source `_sample`: one element of the output tensor, the max-reduction of
`_bilinear` over the bin's sample grid. -/
def _sample (d : FeatureMap) (rois : ℕ → ℕ → Roi) (cfg : Cfg)
    (n i c ph pw : ℕ) : ℚ :=
  let roi := rois n i
  reduceMax (roi_bin_grid_h cfg roi).toNat (roi_bin_grid_w cfg roi).toNat
    fun rh rw => _bilinear d n c (sample_y cfg roi ph rh) (sample_x cfg roi pw rw)

/-- An input tensor as `roi_align_nchw` receives it: a shape (list of extents)
and an element function over index lists. -/
structure TvmTensor where
  shape : List ℕ
  elt : List ℕ → ℚ

/-- The result of the `tvm.compute` call: the declared output shape and the
element function over the five output axes. -/
structure ComputeOut where
  out_shape : List ℤ
  out_elt : ℕ → ℕ → ℕ → ℕ → ℕ → ℚ

/-- `pooled_size` as the source accepts it: a single int, or a pair. -/
inductive PooledSize where
  | single (p : ℤ)
  | pair (ph pw : ℤ)

/-- Source `roi_align_nchw`: unpacks `data.shape` into four names and
`rois.shape` into three (each unpacking succeeds exactly when the rank
matches, else the call raises), splits `pooled_size`, and builds the compute
expression.  No other validation is performed. -/
def roi_align_nchw (data rois : TvmTensor) (pooled_size : PooledSize)
    (spatial_scale : ℚ) (sratio : ℤ) : Except String ComputeOut :=
  match data.shape, rois.shape with
  | [batch, channel, height, width], [num_img, num_roi, _last] =>
    let ps : ℤ × ℤ := match pooled_size with
      | .single p => (p, p)
      | .pair ph pw => (ph, pw)
    let cfg : Cfg := ⟨ps.1, ps.2, spatial_scale, sratio⟩
    let d : FeatureMap :=
      ⟨batch, channel, height, width, fun n c h w => data.elt [n, c, h, w]⟩
    let r : ℕ → ℕ → Roi := fun n i =>
      ⟨rois.elt [n, i, 0], rois.elt [n, i, 1], rois.elt [n, i, 2], rois.elt [n, i, 3]⟩
    .ok ⟨[(num_img : ℤ), (num_roi : ℤ), (channel : ℤ), ps.1, ps.2],
      fun n i c ph pw => _sample d r cfg n i c ph pw⟩
  | _, _ => .error "ValueError: shape unpacking failed"

/-- Stated from the spec's words (claim C3): the vertical sample coordinate is
`roi_start_h + ph * bin_h + (rh + 1) * bin_h / (grid_h + 1)`, built from the
geometry mapping of the ROI row. -/
def spec_sample_y (cfg : Cfg) (roi : Roi) (ph rh : ℕ) : ℚ :=
  roi_start_h cfg roi + (ph : ℚ) * bin_h cfg roi
    + ((rh : ℚ) + 1) * bin_h cfg roi / ((roi_bin_grid_h cfg roi : ℚ) + 1)

/-- Stated from the spec's words (claim C3): the horizontal sample coordinate is
`roi_start_w + pw * bin_w + (rw + 1) * bin_w / (grid_w + 1)`. -/
def spec_sample_x (cfg : Cfg) (roi : Roi) (pw rw : ℕ) : ℚ :=
  roi_start_w cfg roi + (pw : ℚ) * bin_w cfg roi
    + ((rw : ℚ) + 1) * bin_w cfg roi / ((roi_bin_grid_w cfg roi : ℚ) + 1)

/-! ## Concrete inputs used by witnesses and counterexamples -/

/-- A `1 × 1 × 4 × 4` feature map filled with ones. -/
def onesMap4 : FeatureMap := ⟨1, 1, 4, 4, fun _ _ _ _ => 1⟩

/-- A `1 × 1 × 2 × 2` feature map filled with `-5`: every in-range
interpolated value is negative. -/
def negMap2 : FeatureMap := ⟨1, 1, 2, 2, fun _ _ _ _ => -5⟩

/-- Configuration with `pooled_size = 1 × 1`, `spatial_scale = 1`,
`sample_ratio = 1`. -/
def cfg11 : Cfg := ⟨1, 1, 1, 1⟩

/-- Configuration with `pooled_size = 2 × 2`, `spatial_scale = 1`, adaptive
sampling (`sample_ratio = -1`). -/
def cfgAdapt : Cfg := ⟨2, 2, 1, -1⟩

/-- One ROI covering the full `4 × 4` map: `(w_start, h_start, w_end, h_end) =
(0, 0, 3, 3)`. -/
def roisFull : ℕ → ℕ → Roi := fun _ _ => ⟨0, 0, 3, 3⟩

/-- One ROI reaching past a small map: corners `(0, 0, 5, 5)`. -/
def roisFar : ℕ → ℕ → Roi := fun _ _ => ⟨0, 0, 5, 5⟩

/-- One ROI whose box `h ∈ [-9/10, -1/2]` is disjoint from the feature map
(every map row index is ≥ 0) yet lies inside the sampler's extended range. -/
def roisOutside : ℕ → ℕ → Roi := fun _ _ => ⟨0, -9/10, 3, -1/2⟩

/-- One ROI far below the map: `h_start = 100` (spec Scenario B). -/
def roisHundred : ℕ → ℕ → Roi := fun _ _ => ⟨0, 100, 3, 103⟩

/-- ROI batch A: row `(0,0)` is the full-map box, every other row is a small
box. -/
def roisA : ℕ → ℕ → Roi := fun n i =>
  if n = 0 ∧ i = 0 then ⟨0, 0, 3, 3⟩ else ⟨1, 1, 2, 2⟩

/-- ROI batch B: row `(0,0)` agrees with batch A, every other row differs. -/
def roisB : ℕ → ℕ → Roi := fun n i =>
  if n = 0 ∧ i = 0 then ⟨0, 0, 3, 3⟩ else ⟨5, 6, 7, 8⟩

/-- A rank-4 input tensor of shape `[1, 1, 4, 4]` filled with ones. -/
def dataT : TvmTensor := ⟨[1, 1, 4, 4], fun _ => 1⟩

/-- A rank-3 ROI tensor of shape `[1, 1, 4]` filled with zeros. -/
def roisT : TvmTensor := ⟨[1, 1, 4], fun _ => 0⟩

/-! ## Helper lemmas: left fold of `max` over a list -/

lemma le_foldl_max (a : ℚ) (l : List ℚ) : a ≤ l.foldl max a := by
  induction l generalizing a with
  | nil => exact le_refl a
  | cons b t ih => exact le_trans (le_max_left a b) (ih (max a b))

lemma mem_le_foldl_max {b : ℚ} {l : List ℚ} (h : b ∈ l) (a : ℚ) :
    b ≤ l.foldl max a := by
  induction l generalizing a with
  | nil => cases h
  | cons c t ih =>
    rcases List.mem_cons.mp h with rfl | h
    · exact le_trans (le_max_right a b) (le_foldl_max (max a b) t)
    · exact ih h (max a c)

lemma foldl_max_mem (a : ℚ) (l : List ℚ) :
    l.foldl max a = a ∨ l.foldl max a ∈ l := by
  induction l generalizing a with
  | nil => exact Or.inl rfl
  | cons b t ih =>
    rw [List.foldl_cons]
    rcases ih (max a b) with h | h
    · rcases max_choice a b with hc | hc
      · exact Or.inl (h.trans hc)
      · exact Or.inr (by rw [h, hc]; exact List.mem_cons_self b t)
    · exact Or.inr (List.mem_cons_of_mem b h)

/-! ## Helper lemmas: the bin sample list and its max-reduction -/

lemma mem_binSamples {gh gw : ℕ} (f : ℕ → ℕ → ℚ) {rh rw : ℕ}
    (h1 : rh < gh) (h2 : rw < gw) : f rh rw ∈ binSamples gh gw f := by
  unfold binSamples
  exact List.mem_flatMap.mpr
    ⟨rh, List.mem_range.mpr h1, List.mem_map.mpr ⟨rw, List.mem_range.mpr h2, rfl⟩⟩

lemma binSamples_mem {gh gw : ℕ} {f : ℕ → ℕ → ℚ} {v : ℚ}
    (h : v ∈ binSamples gh gw f) :
    ∃ rh rw, rh < gh ∧ rw < gw ∧ v = f rh rw := by
  unfold binSamples at h
  obtain ⟨rh, hrh, hv⟩ := List.mem_flatMap.mp h
  obtain ⟨rw, hrw, hv⟩ := List.mem_map.mp hv
  exact ⟨rh, rw, List.mem_range.mp hrh, List.mem_range.mp hrw, hv.symm⟩

lemma le_reduceMax {gh gw : ℕ} (f : ℕ → ℕ → ℚ) {rh rw : ℕ}
    (h1 : rh < gh) (h2 : rw < gw) : f rh rw ≤ reduceMax gh gw f :=
  mem_le_foldl_max (mem_binSamples f h1 h2) (f 0 0)

lemma reduceMax_mem {gh gw : ℕ} (f : ℕ → ℕ → ℚ) (hh : 0 < gh) (hw : 0 < gw) :
    reduceMax gh gw f ∈ binSamples gh gw f := by
  rcases foldl_max_mem (f 0 0) (binSamples gh gw f) with h | h
  · rw [reduceMax, h]; exact mem_binSamples f hh hw
  · exact h

lemma reduceMax_eq_zero {gh gw : ℕ} (f : ℕ → ℕ → ℚ) (hh : 0 < gh) (hw : 0 < gw)
    (hz : ∀ rh < gh, ∀ rw < gw, f rh rw = 0) : reduceMax gh gw f = 0 := by
  obtain ⟨rh, rw, h1, h2, hv⟩ := binSamples_mem (reduceMax_mem f hh hw)
  rw [hv, hz rh h1 rw h2]

/-! ## Helper lemmas: geometry and grid bounds -/

lemma one_le_roi_h (cfg : Cfg) (roi : Roi) : 1 ≤ roi_h cfg roi :=
  le_max_right _ _

lemma one_le_roi_w (cfg : Cfg) (roi : Roi) : 1 ≤ roi_w cfg roi :=
  le_max_right _ _

lemma bin_h_pos (cfg : Cfg) (roi : Roi) (hp : 0 < cfg.pooled_size_h) :
    0 < bin_h cfg roi :=
  div_pos (lt_of_lt_of_le one_pos (one_le_roi_h cfg roi))
    (by exact_mod_cast hp)

lemma bin_w_pos (cfg : Cfg) (roi : Roi) (hp : 0 < cfg.pooled_size_w) :
    0 < bin_w cfg roi :=
  div_pos (lt_of_lt_of_le one_pos (one_le_roi_w cfg roi))
    (by exact_mod_cast hp)

lemma grid_h_pos (cfg : Cfg) (roi : Roi) (hp : 0 < cfg.pooled_size_h) :
    1 ≤ roi_bin_grid_h cfg roi := by
  unfold roi_bin_grid_h
  split
  · omega
  · have h : 0 < ⌈roi_h cfg roi / (cfg.pooled_size_h : ℚ)⌉ :=
      Int.ceil_pos.mpr (div_pos (lt_of_lt_of_le one_pos (one_le_roi_h cfg roi))
        (by exact_mod_cast hp))
    omega

lemma grid_w_pos (cfg : Cfg) (roi : Roi) (hp : 0 < cfg.pooled_size_w) :
    1 ≤ roi_bin_grid_w cfg roi := by
  unfold roi_bin_grid_w
  split
  · omega
  · have h : 0 < ⌈roi_w cfg roi / (cfg.pooled_size_w : ℚ)⌉ :=
      Int.ceil_pos.mpr (div_pos (lt_of_lt_of_le one_pos (one_le_roi_w cfg roi))
        (by exact_mod_cast hp))
    omega

/-! ## Helper lemmas: bounds on the generated sample coordinates -/

lemma lt_sample_y (cfg : Cfg) (roi : Roi) (ph rh : ℕ)
    (hp : 0 < cfg.pooled_size_h) :
    roi_start_h cfg roi < sample_y cfg roi ph rh := by
  have hb := bin_h_pos cfg roi hp
  have hg := grid_h_pos cfg roi hp
  have hgq : (1 : ℚ) ≤ (roi_bin_grid_h cfg roi : ℚ) := by exact_mod_cast hg
  have hterm2 : 0 ≤ (ph : ℚ) * bin_h cfg roi :=
    mul_nonneg (Nat.cast_nonneg ph) hb.le
  have hterm3 : 0 < ((rh : ℚ) + 1) * bin_h cfg roi
      / ((roi_bin_grid_h cfg roi : ℚ) + 1) :=
    div_pos (mul_pos (by positivity) hb) (by linarith)
  rw [sample_y]
  linarith

lemma lt_sample_x (cfg : Cfg) (roi : Roi) (pw rw : ℕ)
    (hp : 0 < cfg.pooled_size_w) :
    roi_start_w cfg roi < sample_x cfg roi pw rw := by
  have hb := bin_w_pos cfg roi hp
  have hg := grid_w_pos cfg roi hp
  have hgq : (1 : ℚ) ≤ (roi_bin_grid_w cfg roi : ℚ) := by exact_mod_cast hg
  have hterm2 : 0 ≤ (pw : ℚ) * bin_w cfg roi :=
    mul_nonneg (Nat.cast_nonneg pw) hb.le
  have hterm3 : 0 < ((rw : ℚ) + 1) * bin_w cfg roi
      / ((roi_bin_grid_w cfg roi : ℚ) + 1) :=
    div_pos (mul_pos (by positivity) hb) (by linarith)
  rw [sample_x]
  linarith

lemma sample_y_lt (cfg : Cfg) (roi : Roi) (ph rh : ℕ)
    (hp : 0 < cfg.pooled_size_h)
    (hph : (ph : ℤ) + 1 ≤ cfg.pooled_size_h)
    (hrh : (rh : ℤ) + 1 ≤ roi_bin_grid_h cfg roi) :
    sample_y cfg roi ph rh < roi_start_h cfg roi + roi_h cfg roi := by
  have hb := bin_h_pos cfg roi hp
  have hg := grid_h_pos cfg roi hp
  have hgq : (1 : ℚ) ≤ (roi_bin_grid_h cfg roi : ℚ) := by exact_mod_cast hg
  have hgpos : (0 : ℚ) < (roi_bin_grid_h cfg roi : ℚ) + 1 := by linarith
  have hrhq : (rh : ℚ) + 1 ≤ (roi_bin_grid_h cfg roi : ℚ) := by exact_mod_cast hrh
  have hphq : (ph : ℚ) + 1 ≤ (cfg.pooled_size_h : ℚ) := by exact_mod_cast hph
  have hPne : (cfg.pooled_size_h : ℚ) ≠ 0 := by
    have : (0 : ℚ) < (cfg.pooled_size_h : ℚ) := by exact_mod_cast hp
    exact this.ne'
  have hPb : (cfg.pooled_size_h : ℚ) * bin_h cfg roi = roi_h cfg roi := by
    rw [bin_h]; exact mul_div_cancel₀ _ hPne
  have ht3 : ((rh : ℚ) + 1) * bin_h cfg roi
      / ((roi_bin_grid_h cfg roi : ℚ) + 1) < bin_h cfg roi := by
    rw [div_lt_iff₀ hgpos]; nlinarith
  rw [sample_y]
  linarith [mul_le_mul_of_nonneg_right hphq hb.le, ht3, hPb]

lemma sample_x_lt (cfg : Cfg) (roi : Roi) (pw rw : ℕ)
    (hp : 0 < cfg.pooled_size_w)
    (hpw : (pw : ℤ) + 1 ≤ cfg.pooled_size_w)
    (hrw : (rw : ℤ) + 1 ≤ roi_bin_grid_w cfg roi) :
    sample_x cfg roi pw rw < roi_start_w cfg roi + roi_w cfg roi := by
  have hb := bin_w_pos cfg roi hp
  have hg := grid_w_pos cfg roi hp
  have hgq : (1 : ℚ) ≤ (roi_bin_grid_w cfg roi : ℚ) := by exact_mod_cast hg
  have hgpos : (0 : ℚ) < (roi_bin_grid_w cfg roi : ℚ) + 1 := by linarith
  have hrwq : (rw : ℚ) + 1 ≤ (roi_bin_grid_w cfg roi : ℚ) := by exact_mod_cast hrw
  have hpwq : (pw : ℚ) + 1 ≤ (cfg.pooled_size_w : ℚ) := by exact_mod_cast hpw
  have hPne : (cfg.pooled_size_w : ℚ) ≠ 0 := by
    have : (0 : ℚ) < (cfg.pooled_size_w : ℚ) := by exact_mod_cast hp
    exact this.ne'
  have hPb : (cfg.pooled_size_w : ℚ) * bin_w cfg roi = roi_w cfg roi := by
    rw [bin_w]; exact mul_div_cancel₀ _ hPne
  have ht3 : ((rw : ℚ) + 1) * bin_w cfg roi
      / ((roi_bin_grid_w cfg roi : ℚ) + 1) < bin_w cfg roi := by
    rw [div_lt_iff₀ hgpos]; nlinarith
  rw [sample_x]
  linarith [mul_le_mul_of_nonneg_right hpwq hb.le, ht3, hPb]

lemma _bilinear_outside (d : FeatureMap) (i c : ℕ) (y x : ℚ)
    (h : y < -1 ∨ x < -1 ∨ (d.height : ℚ) < y ∨ (d.width : ℚ) < x) :
    _bilinear d i c y x = 0 := by
  rw [_bilinear, if_pos h]

lemma reduceMax_one_one (f : ℕ → ℕ → ℚ) : reduceMax 1 1 f = f 0 0 := by
  simp [reduceMax, binSamples, List.range_succ, max_self]

/-! ## The claims -/

/-- C1: for every input with positive pooled sizes, the output element
`Output[n,i,c,ph,pw]` is the maximum over all `grid_h × grid_w` bilinearly
sampled values of the bin — it is one of the sampled values and an upper bound
of all of them, which characterizes the maximum (and rules out an average). -/
theorem c1_output_is_bin_max (d : FeatureMap) (rois : ℕ → ℕ → Roi) (cfg : Cfg)
    (n i c ph pw : ℕ)
    (hh : 0 < cfg.pooled_size_h) (hw : 0 < cfg.pooled_size_w) :
    _sample d rois cfg n i c ph pw ∈
      binSamples (roi_bin_grid_h cfg (rois n i)).toNat
        (roi_bin_grid_w cfg (rois n i)).toNat
        (fun rh rw => _bilinear d n c (sample_y cfg (rois n i) ph rh)
          (sample_x cfg (rois n i) pw rw)) ∧
    ∀ v ∈ binSamples (roi_bin_grid_h cfg (rois n i)).toNat
        (roi_bin_grid_w cfg (rois n i)).toNat
        (fun rh rw => _bilinear d n c (sample_y cfg (rois n i) ph rh)
          (sample_x cfg (rois n i) pw rw)),
      v ≤ _sample d rois cfg n i c ph pw := by
  have hgh : 0 < (roi_bin_grid_h cfg (rois n i)).toNat := by
    have := grid_h_pos cfg (rois n i) hh; omega
  have hgw : 0 < (roi_bin_grid_w cfg (rois n i)).toNat := by
    have := grid_w_pos cfg (rois n i) hw; omega
  constructor
  · exact reduceMax_mem _ hgh hgw
  · intro v hv
    obtain ⟨rh, rw, h1, h2, hv⟩ := binSamples_mem hv
    rw [hv]
    exact le_reduceMax _ h1 h2

/-- C1 witness: the theorem applied to the ones map, the full-map ROI and the
`1 × 1` pooling configuration. -/
theorem c1_witness :
    _sample onesMap4 roisFull cfg11 0 0 0 0 0 ∈
      binSamples (roi_bin_grid_h cfg11 (roisFull 0 0)).toNat
        (roi_bin_grid_w cfg11 (roisFull 0 0)).toNat
        (fun rh rw => _bilinear onesMap4 0 0 (sample_y cfg11 (roisFull 0 0) 0 rh)
          (sample_x cfg11 (roisFull 0 0) 0 rw)) ∧
    ∀ v ∈ binSamples (roi_bin_grid_h cfg11 (roisFull 0 0)).toNat
        (roi_bin_grid_w cfg11 (roisFull 0 0)).toNat
        (fun rh rw => _bilinear onesMap4 0 0 (sample_y cfg11 (roisFull 0 0) 0 rh)
          (sample_x cfg11 (roisFull 0 0) 0 rw)),
      v ≤ _sample onesMap4 roisFull cfg11 0 0 0 0 0 :=
  c1_output_is_bin_max onesMap4 roisFull cfg11 0 0 0 0 0 (by decide) (by decide)

/-- C3: the coordinates handed to the bilinear sampler are exactly the claim's
formulas `y = roi_start_h + ph * bin_h + (rh + 1) * bin_h / (grid_h + 1)` and
`x = roi_start_w + pw * bin_w + (rw + 1) * bin_w / (grid_w + 1)`, with all the
quantities produced by the geometry mapping of `ROIBatch[n,i]`. -/
theorem c3_sample_coordinates (d : FeatureMap) (rois : ℕ → ℕ → Roi) (cfg : Cfg)
    (n i c ph pw : ℕ) :
    (∀ rh : ℕ, sample_y cfg (rois n i) ph rh = spec_sample_y cfg (rois n i) ph rh) ∧
    (∀ rw : ℕ, sample_x cfg (rois n i) pw rw = spec_sample_x cfg (rois n i) pw rw) ∧
    _sample d rois cfg n i c ph pw =
      reduceMax (roi_bin_grid_h cfg (rois n i)).toNat
        (roi_bin_grid_w cfg (rois n i)).toNat
        (fun rh rw => _bilinear d n c (spec_sample_y cfg (rois n i) ph rh)
          (spec_sample_x cfg (rois n i) pw rw)) :=
  ⟨fun _ => rfl, fun _ => rfl, rfl⟩

/-- C4: when `sample_ratio > 0` both grid counts equal `sample_ratio`
regardless of bin size; when `sample_ratio = -1` (adaptive mode) they equal
`ceil(roi_h / pooled_size_h)` and `ceil(roi_w / pooled_size_w)`, which are
exactly `ceil(bin_h)` and `ceil(bin_w)`. -/
theorem c4_grid_counts (cfg : Cfg) (roi : Roi) :
    (0 < cfg.sample_ratio →
      roi_bin_grid_h cfg roi = cfg.sample_ratio ∧
      roi_bin_grid_w cfg roi = cfg.sample_ratio) ∧
    (cfg.sample_ratio = -1 →
      roi_bin_grid_h cfg roi = ⌈roi_h cfg roi / (cfg.pooled_size_h : ℚ)⌉ ∧
      roi_bin_grid_h cfg roi = ⌈bin_h cfg roi⌉ ∧
      roi_bin_grid_w cfg roi = ⌈roi_w cfg roi / (cfg.pooled_size_w : ℚ)⌉ ∧
      roi_bin_grid_w cfg roi = ⌈bin_w cfg roi⌉) := by
  constructor
  · intro h
    rw [roi_bin_grid_h, roi_bin_grid_w, if_pos h, if_pos h]
    exact ⟨rfl, rfl⟩
  · intro h
    have h' : ¬ 0 < cfg.sample_ratio := by omega
    rw [roi_bin_grid_h, roi_bin_grid_w, if_neg h', if_neg h']
    exact ⟨rfl, rfl, rfl, rfl⟩

/-- C5: after scaling the four box coordinates by `spatial_scale`, the extents
used for binning are `roi_h = max(end_h - start_h, 1)` and
`roi_w = max(end_w - start_w, 1)` — at least `1`, and exactly `1` for a
degenerate box with `end ≤ start` — while the scaled start coordinates are
used unchanged. -/
theorem c5_geometry (cfg : Cfg) (roi : Roi) :
    (roi_start_h cfg roi = roi.h_start * cfg.spatial_scale ∧
     roi_start_w cfg roi = roi.w_start * cfg.spatial_scale) ∧
    (roi_h cfg roi = max (roi_end_h cfg roi - roi_start_h cfg roi) 1 ∧
     roi_w cfg roi = max (roi_end_w cfg roi - roi_start_w cfg roi) 1) ∧
    (1 ≤ roi_h cfg roi ∧ 1 ≤ roi_w cfg roi) ∧
    (roi_end_h cfg roi ≤ roi_start_h cfg roi → roi_h cfg roi = 1) ∧
    (roi_end_w cfg roi ≤ roi_start_w cfg roi → roi_w cfg roi = 1) := by
  refine ⟨⟨rfl, rfl⟩, ⟨rfl, rfl⟩,
    ⟨one_le_roi_h cfg roi, one_le_roi_w cfg roi⟩, ?_, ?_⟩
  · intro h
    exact max_eq_right (by linarith)
  · intro h
    exact max_eq_right (by linarith)

/-- C7: the output element `(n,i,c,ph,pw)` depends only on the feature map,
the single ROI row `rois[n][i]` and the configuration: two ROI batches that
agree on row `(n,i)` give equal values there, whatever the other rows hold. -/
theorem c7_row_locality (d : FeatureMap) (rois1 rois2 : ℕ → ℕ → Roi)
    (cfg : Cfg) (n i c ph pw : ℕ) (h : rois1 n i = rois2 n i) :
    _sample d rois1 cfg n i c ph pw = _sample d rois2 cfg n i c ph pw := by
  unfold _sample
  rw [h]

/-- C7 witness: batches A and B agree on row `(0,0)` and differ on every other
row; the output at `(0,0,0,0,0)` coincides. -/
theorem c7_witness :
    _sample onesMap4 roisA cfg11 0 0 0 0 0 =
      _sample onesMap4 roisB cfg11 0 0 0 0 0 :=
  c7_row_locality onesMap4 roisA roisB cfg11 0 0 0 0 0 (by norm_num [roisA, roisB])

/-- C8: for positive pooled sizes and `sample_ratio` positive or `-1`, the two
per-bin sample counts are at least 1 — the grid generator never returns 0. -/
theorem c8_grid_counts_pos (cfg : Cfg) (roi : Roi)
    (hh : 0 < cfg.pooled_size_h) (hw : 0 < cfg.pooled_size_w)
    (hr : 0 < cfg.sample_ratio ∨ cfg.sample_ratio = -1) :
    1 ≤ roi_bin_grid_h cfg roi ∧ 1 ≤ roi_bin_grid_w cfg roi :=
  ⟨grid_h_pos cfg roi hh, grid_w_pos cfg roi hw⟩

/-- C8 witness: the adaptive configuration on the full-map ROI. -/
theorem c8_witness :
    1 ≤ roi_bin_grid_h cfgAdapt (roisFull 0 0) ∧
    1 ≤ roi_bin_grid_w cfgAdapt (roisFull 0 0) :=
  c8_grid_counts_pos cfgAdapt (roisFull 0 0) (by decide) (by decide)
    (Or.inr (by decide))

/-- C2 counterexample: the claim places the out-of-range cutoff at the last
valid index `size - 1`.  On a `4 × 4` ones map the coordinate `y = 7/2`
exceeds `height - 1 = 3` (and `x = 0` is in range), so the claim predicts the
sampler returns `0`; the code compares against the dimension size `4`, finds
`7/2 ≤ 4`, interpolates, and returns `1 ≠ 0`. -/
theorem c2_counterexample :
    (onesMap4.height : ℚ) - 1 < 7/2 ∧
    ¬ ((7/2 : ℚ) < -1) ∧ ¬ ((0 : ℚ) < -1) ∧ ¬ ((onesMap4.width : ℚ) - 1 < 0) ∧
    _bilinear onesMap4 0 0 (7/2) 0 = 1 ∧ (1 : ℚ) ≠ 0 := by
  refine ⟨by norm_num [onesMap4], by norm_num, by norm_num,
    by norm_num [onesMap4], ?_, by norm_num⟩
  have hfl : ⌊(7:ℚ)/2⌋ = 3 := by rw [Int.floor_eq_iff]; norm_num
  have hcl : ⌈(7:ℚ)/2⌉ = 4 := by rw [Int.ceil_eq_iff]; norm_num
  norm_num [_bilinear, bilinear_sample_nchw, onesMap4, hfl, hcl]

/-- C2 amended: the bilinear sampler returns exactly `0` whenever the original
unclamped coordinate satisfies `y < -1`, `x < -1`, `y > height` or
`x > width`, where `height` and `width` are the feature map's dimension sizes
(one past the last valid index), independent of the feature-map contents;
otherwise it clamps `y` and `x` to be `≥ 0` and interpolates against the four
neighboring grid points with index bounds `height - 1`, `width - 1`. -/
theorem c2_bilinear_cutoff (d : FeatureMap) (i c : ℕ) (y x : ℚ) :
    (y < -1 ∨ x < -1 ∨ (d.height : ℚ) < y ∨ (d.width : ℚ) < x →
      ∀ g : ℕ → ℕ → ℕ → ℕ → ℚ,
        _bilinear ⟨d.batch, d.channel, d.height, d.width, g⟩ i c y x = 0) ∧
    (¬ (y < -1 ∨ x < -1 ∨ (d.height : ℚ) < y ∨ (d.width : ℚ) < x) →
      _bilinear d i c y x = bilinear_sample_nchw d i c (max y 0) (max x 0)
        ((d.height : ℤ) - 1) ((d.width : ℤ) - 1)) := by
  constructor
  · intro h g
    exact _bilinear_outside _ i c y x h
  · intro h
    rw [_bilinear, if_neg h]

/-- C6 counterexample: with well-shaped inputs and `pooled_size = 0` (which
the claim's ConfigurationError covers, `0 ≤ 0`), the call does not fail: it
returns a compute definition whose output shape is `[1, 1, 1, 0, 0]`. -/
theorem c6_counterexample :
    (0 : ℤ) ≤ 0 ∧
    (roi_align_nchw dataT roisT (PooledSize.single 0) 1 (-1)).toOption.map
      (fun o => o.out_shape) = some [1, 1, 1, 0, 0] :=
  ⟨le_refl 0, rfl⟩

/-- C6 amended: the call fails immediately (before any output is constructed)
exactly when the feature map is not rank-4 or the ROI batch is not rank-3 —
the two tuple unpackings of the shapes; `pooled_size ≤ 0` and a trailing ROI
dimension other than 4 are not validated and do not cause failure. -/
theorem c6_validation (data rois : TvmTensor) (pooled_size : PooledSize)
    (spatial_scale : ℚ) (sratio : ℤ) :
    (roi_align_nchw data rois pooled_size spatial_scale sratio).toOption.isSome
      = true ↔ data.shape.length = 4 ∧ rois.shape.length = 3 := by
  obtain ⟨ds, de⟩ := data
  obtain ⟨rs, re⟩ := rois
  rcases ds with _ | ⟨a, _ | ⟨b, _ | ⟨c, _ | ⟨d, _ | ⟨e, ds⟩⟩⟩⟩⟩ <;>
    rcases rs with _ | ⟨p, _ | ⟨q, _ | ⟨r, _ | ⟨s, rs⟩⟩⟩⟩ <;>
      simp [roi_align_nchw, Except.toOption]

/-- C9 counterexample: the ROI box `h ∈ [-9/10, -1/2]` lies entirely outside
the feature map (both scaled `h` corners are below row 0), yet the single
sample falls at `y = -2/5`, inside the sampler's extended range `[-1, height]`,
and the output is `1`, not `0`. -/
theorem c9_counterexample :
    roi_start_h cfg11 (roisOutside 0 0) < 0 ∧
    roi_end_h cfg11 (roisOutside 0 0) < 0 ∧
    _sample onesMap4 roisOutside cfg11 0 0 0 0 0 = 1 ∧ (1 : ℚ) ≠ 0 := by
  refine ⟨by norm_num [roi_start_h, cfg11, roisOutside],
    by norm_num [roi_end_h, cfg11, roisOutside], ?_, by norm_num⟩
  have hy : sample_y cfg11 (roisOutside 0 0) 0 0 = -2/5 := by
    norm_num [sample_y, roi_start_h, roi_end_h, bin_h, roi_h, roi_bin_grid_h,
      cfg11, roisOutside]
  have hx : sample_x cfg11 (roisOutside 0 0) 0 0 = 3/2 := by
    norm_num [sample_x, roi_start_w, roi_end_w, bin_w, roi_w, roi_bin_grid_w,
      cfg11, roisOutside]
  have hbil : _bilinear onesMap4 0 0 (-2/5) (3/2) = 1 := by
    have hfl : ⌊(3:ℚ)/2⌋ = 1 := by rw [Int.floor_eq_iff]; norm_num
    have hcl : ⌈(3:ℚ)/2⌉ = 2 := by rw [Int.ceil_eq_iff]; norm_num
    norm_num [_bilinear, bilinear_sample_nchw, onesMap4, hfl, hcl]
  have hgh : (roi_bin_grid_h cfg11 (roisOutside 0 0)).toNat = 1 := by
    norm_num [roi_bin_grid_h, cfg11]
  have hgw : (roi_bin_grid_w cfg11 (roisOutside 0 0)).toNat = 1 := by
    norm_num [roi_bin_grid_w, cfg11]
  have h1 : _sample onesMap4 roisOutside cfg11 0 0 0 0 0 =
      reduceMax (roi_bin_grid_h cfg11 (roisOutside 0 0)).toNat
        (roi_bin_grid_w cfg11 (roisOutside 0 0)).toNat
        (fun rh rw => _bilinear onesMap4 0 0 (sample_y cfg11 (roisOutside 0 0) 0 rh)
          (sample_x cfg11 (roisOutside 0 0) 0 rw)) := rfl
  rw [h1, hgh, hgw, reduceMax_one_one, hy, hx, hbil]

/-- C9 amended: for every ROI whose scaled box lies entirely beyond the
sampler's extended range in some axis — scaled `start_h > height`, or scaled
`start_w > width`, or `start_h + roi_h < -1`, or `start_w + roi_w < -1`
(`height`/`width` the map's dimension sizes) — every generated sample
coordinate is out-of-range, and every output value for that ROI is exactly 0. -/
theorem c9_outside_roi_zero (d : FeatureMap) (rois : ℕ → ℕ → Roi) (cfg : Cfg)
    (n i c ph pw : ℕ)
    (hh : 0 < cfg.pooled_size_h) (hw : 0 < cfg.pooled_size_w)
    (hph : ph < cfg.pooled_size_h.toNat) (hpw : pw < cfg.pooled_size_w.toNat)
    (hout : (d.height : ℚ) < roi_start_h cfg (rois n i) ∨
      (d.width : ℚ) < roi_start_w cfg (rois n i) ∨
      roi_start_h cfg (rois n i) + roi_h cfg (rois n i) < -1 ∨
      roi_start_w cfg (rois n i) + roi_w cfg (rois n i) < -1) :
    _sample d rois cfg n i c ph pw = 0 := by
  have hgh := grid_h_pos cfg (rois n i) hh
  have hgw := grid_w_pos cfg (rois n i) hw
  have hghn : 0 < (roi_bin_grid_h cfg (rois n i)).toNat := by omega
  have hgwn : 0 < (roi_bin_grid_w cfg (rois n i)).toNat := by omega
  have hz : ∀ rh < (roi_bin_grid_h cfg (rois n i)).toNat,
      ∀ rw < (roi_bin_grid_w cfg (rois n i)).toNat,
      _bilinear d n c (sample_y cfg (rois n i) ph rh)
        (sample_x cfg (rois n i) pw rw) = 0 := by
    intro rh hrh rw hrw
    apply _bilinear_outside
    rcases hout with h | h | h | h
    · exact Or.inr (Or.inr (Or.inl (h.trans (lt_sample_y cfg (rois n i) ph rh hh))))
    · exact Or.inr (Or.inr (Or.inr (h.trans (lt_sample_x cfg (rois n i) pw rw hw))))
    · have := sample_y_lt cfg (rois n i) ph rh hh (by omega) (by omega)
      exact Or.inl (by linarith)
    · have := sample_x_lt cfg (rois n i) pw rw hw (by omega) (by omega)
      exact Or.inr (Or.inl (by linarith))
  exact reduceMax_eq_zero _ hghn hgwn hz

/-- C9 witness: spec Scenario B, `h_start = 100` on a map of height 4 with
`spatial_scale = 1`: the output element is 0. -/
theorem c9_witness : _sample onesMap4 roisHundred cfg11 0 0 0 0 0 = 0 :=
  c9_outside_roi_zero onesMap4 roisHundred cfg11 0 0 0 0 0 (by decide)
    (by decide) (by decide) (by decide)
    (Or.inl (by norm_num [roi_start_h, cfg11, roisHundred, onesMap4]))

/-- C10: when a bin contains at least one out-of-range sample point, the
output element is `≥ 0` even if every in-range interpolated value is
negative: the out-of-range sample participates in the max reduction with the
value 0 and can dominate negative in-range samples. -/
theorem c10_out_of_range_dominates (d : FeatureMap) (rois : ℕ → ℕ → Roi)
    (cfg : Cfg) (n i c ph pw rh rw : ℕ)
    (h1 : rh < (roi_bin_grid_h cfg (rois n i)).toNat)
    (h2 : rw < (roi_bin_grid_w cfg (rois n i)).toNat)
    (hout : sample_y cfg (rois n i) ph rh < -1 ∨
      sample_x cfg (rois n i) pw rw < -1 ∨
      (d.height : ℚ) < sample_y cfg (rois n i) ph rh ∨
      (d.width : ℚ) < sample_x cfg (rois n i) pw rw) :
    0 ≤ _sample d rois cfg n i c ph pw := by
  have hz := _bilinear_outside d n c _ _ hout
  have hle := le_reduceMax
    (fun rh rw => _bilinear d n c (sample_y cfg (rois n i) ph rh)
      (sample_x cfg (rois n i) pw rw)) h1 h2
  exact le_trans (le_of_eq hz.symm) hle

/-- C10 witness: an all-negative `2 × 2` map with an ROI reaching past the
map; the single sample at `y = 5/2 > 2` is out of range and the output is
`0 ≥ 0` although every map value is `-5`. -/
theorem c10_witness : 0 ≤ _sample negMap2 roisFar cfg11 0 0 0 0 0 :=
  c10_out_of_range_dominates negMap2 roisFar cfg11 0 0 0 0 0 0 0 (by decide)
    (by decide)
    (Or.inr (Or.inr (Or.inl (by norm_num [sample_y, roi_start_h, roi_end_h,
      bin_h, roi_h, roi_bin_grid_h, cfg11, roisFar, negMap2]))))

end RoiAlign
